import Mathlib

/-!
# expgio: the `slicer` and `circles` programs

A shallow embedding of `slicer/main.go` and `circles/main.go`.

Conventions of the embedding.

* `float64` and `float32` values are idealised as rationals (`ℚ`): the
  arithmetic is exact and the conversions `float64(·)`, `float32(·)` are the
  identity.  Division is the field division of `ℚ`.
* `int` and `int64` values are integers (`Int`); where the source adds two
  `int64` values the sum is reduced into the 64-bit range explicitly.
* A function that can panic (index out of range) returns `Option`; `none`
  is the panic.
* The calls a layout function makes on `gtx.Ops` are recorded, in call
  order, as a list of `Op`.
* The geometry library `ln` and the packages `gioui.org/...`, `f32color`
  and `time` are not part of the sources.  The operations of `ln` the
  program calls are the fields of the structure `Ln`; a colour is recorded
  as the constructor call that produced it.
-/

namespace Slicer

/-- The type `ln.Vector`. -/
structure Vector where
  X : ℚ
  Y : ℚ
  Z : ℚ
  deriving DecidableEq

/-- The type `ln.Plane`: a point of the plane and its normal. -/
structure Plane where
  Point : Vector
  Normal : Vector
  deriving DecidableEq

/-- The type `ln.Path`: an ordered sequence of vertices. -/
abbrev Path := List Vector

/-- The type `ln.Paths`. -/
abbrev Paths := List Path

/-- The type `f32.Point`: a pixel coordinate. -/
structure Point where
  X : ℚ
  Y : ℚ
  deriving DecidableEq

/-- The type `image.Point`. -/
structure ImagePoint where
  X : Int
  Y : Int
  deriving DecidableEq

/-- A colour value, recorded as the call that built it: `f32color.HSL(h, s, l)`
or the literal `color.NRGBA{R, G, B, A}`. -/
inductive Color where
  | HSL (h s l : ℚ)
  | NRGBA (r g b a : Nat)
  deriving DecidableEq

/-- One call on `gtx.Ops`.  `Stroke w` is
`clip.Stroke{Path: p.End(), Width: w}.Op().Add(gtx.Ops)`; `MoveTo` and
`LineTo` are the calls on the `clip.Path` begun by `PathBegin`. -/
inductive Op where
  | InvalidateOp
  | Save
  | Load
  | PathBegin
  | MoveTo (p : Point)
  | LineTo (p : Point)
  | Stroke (width : ℚ)
  | ColorOp (c : Color)
  | PaintOp
  deriving DecidableEq

/-- The shape added to the `ln.Scene` in `Scene.Layout`: the mesh itself or
`ln.NewTransformedShape(mesh, matrix)`. -/
inductive Shape (Mesh Matrix : Type) where
  | mesh (m : Mesh)
  | transformed (m : Mesh) (matrix : Matrix)

/-- The operations of the geometry library `ln` that the program calls.
`Scale` and `Perspective` are the methods `Matrix.Scale` and
`Matrix.Perspective` (receiver first); `Rotate`, `LookAt` and `Translate`
are the package-level constructors; `Render` is `Scene.Render` on a scene
holding one shape. -/
structure Ln (Mesh Matrix : Type) where
  Rotate : Vector → ℚ → Matrix
  LookAt : Vector → Vector → Vector → Matrix
  Translate : Vector → Matrix
  Scale : Matrix → Vector → Matrix
  Perspective : Matrix → ℚ → ℚ → ℚ → ℚ → Matrix
  MulPosition : Matrix → Vector → Vector
  IntersectMesh : Plane → Mesh → Paths
  Simplify : Paths → ℚ → Paths
  Render : Shape Mesh Matrix → Vector → Vector → Vector → ℚ → ℚ → ℚ → ℚ → ℚ → ℚ → Paths

/-- Modelled from the spec: `Paths.Transform` of the geometry library is not
among the sources; the specification has the matrix applied to every vertex
of every contour, the contours and their vertex order kept. -/
def Ln.Transform {Mesh Matrix : Type} (L : Ln Mesh Matrix) (paths : Paths) (m : Matrix) : Paths :=
  paths.map (fun path => path.map (L.MulPosition m))

/-- The part of `layout.Context` the program reads: `gtx.Constraints.Max`
and `gtx.Now.UnixNano()`. -/
structure Context where
  Max : ImagePoint
  Now : Int

/-- What a layout call leaves behind: the planes handed to `IntersectMesh`
(in call order), the calls made on `gtx.Ops` (in call order) and the `Size`
of the returned `layout.Dimensions`. -/
structure Frame where
  planes : List Plane
  ops : List Op
  Size : ImagePoint
  deriving DecidableEq

/-- The function `f64pt`. -/
def f64pt (v : Vector) (h : ℚ) : Point :=
  { X := v.X, Y := h - v.Y }

/-- The body of `for _, path := range paths`: `p.MoveTo(f64pt(path[0], h))`
and then `p.LineTo(f64pt(v, h))` for every `v` of `path[1:]`.  `path[0]` of
an empty path is an index out of range. -/
def pathOps (h : ℚ) : Path → Option (List Op)
  | [] => none
  | v0 :: rest => some (Op.MoveTo (f64pt v0 h) :: rest.map (fun v => Op.LineTo (f64pt v h)))

/-- The projection loop `for _, path := range paths { ... }` of
`Scene.Layout` and `Slice.Layout` (the two loops are the same text). -/
def projectPaths (h : ℚ) : Paths → Option (List Op)
  | [] => some []
  | path :: rest =>
    match pathOps h path with
    | none => none
    | some cmds =>
      match projectPaths h rest with
      | none => none
      | some more => some (cmds ++ more)

/-- The struct `Scene`. -/
structure Scene (Mesh : Type) where
  Mesh : Mesh
  RotY : ℚ
  Eye : Vector
  Up : Vector
  Center : Vector

/-- The method `Scene.Layout`. -/
def Scene.Layout {Mesh Matrix : Type} (L : Ln Mesh Matrix) (scene : Scene Mesh)
    (gtx : Context) : Option Frame :=
  let size := gtx.Max
  let s : Shape Mesh Matrix :=
    if scene.RotY ≠ 0 then Shape.transformed scene.Mesh (L.Rotate ⟨0, 1, 0⟩ scene.RotY)
    else Shape.mesh scene.Mesh
  let paths := L.Render s scene.Eye scene.Center scene.Up (size.X : ℚ) (size.Y : ℚ)
    35 (1 / 10) 100 (1 / 100)
  let h : ℚ := (size.Y : ℚ)
  match projectPaths h paths with
  | none => none
  | some cmds =>
    some { planes := [],
           ops := [Op.InvalidateOp, Op.Save, Op.PathBegin] ++ cmds ++
             [Op.Stroke 1, Op.ColorOp (Color.NRGBA 0 0 0 255), Op.PaintOp, Op.Load],
           Size := size }

/-- The struct `Slice`. -/
structure Slice (Mesh : Type) where
  Mesh : Mesh
  Slices : Int
  RotY : ℚ
  Eye : Vector
  Up : Vector
  Center : Vector

/-- The local `slice` of iteration `i`:
`float64(i)/float64(scene.Slices)*2 - 1`. -/
def sliceOffset (Slices i : Int) : ℚ :=
  (i : ℚ) / (Slices : ℚ) * 2 - 1

/-- The local `plane` of iteration `i`:
`ln.Plane{ln.Vector{0, slice, 0}, ln.Vector{0, 1, 0}}`. -/
def slicePlane (Slices i : Int) : Plane :=
  { Point := ⟨0, sliceOffset Slices i, 0⟩, Normal := ⟨0, 1, 0⟩ }

/-- The local `rotation` of `Slice.Layout`. -/
def rotationMatrix {Mesh Matrix : Type} (L : Ln Mesh Matrix) (RotY : ℚ) : Matrix :=
  L.Scale (L.Rotate ⟨0, 1, 0⟩ RotY) ⟨1 / 2, 1 / 2, 1 / 2⟩

/-- The local `matrix` of `Slice.Layout` after both assignments, with
`aspect := float64(size.X) / float64(size.Y)`. -/
def viewMatrix {Mesh Matrix : Type} (L : Ln Mesh Matrix) (Eye Center Up : Vector)
    (size : ImagePoint) : Matrix :=
  let aspect := (size.X : ℚ) / (size.Y : ℚ)
  let matrix := L.LookAt Eye Center Up
  L.Perspective matrix 35 aspect (1 / 10) 100

/-- The matrix of the third `Transform` call of `Slice.Layout`. -/
def screenMatrix {Mesh Matrix : Type} (L : Ln Mesh Matrix) (size : ImagePoint) : Matrix :=
  L.Scale (L.Translate ⟨1, 1, 0⟩) ⟨(size.X : ℚ) / 2, (size.Y : ℚ) / 2, 0⟩

/-- The three successive `paths = paths.Transform(...)` of `Slice.Layout`. -/
def renderPaths {Mesh Matrix : Type} (L : Ln Mesh Matrix) (scene : Slice Mesh)
    (size : ImagePoint) (paths : Paths) : Paths :=
  let paths := L.Transform paths (rotationMatrix L scene.RotY)
  let paths := L.Transform paths (viewMatrix L scene.Eye scene.Center scene.Up size)
  L.Transform paths (screenMatrix L size)

/-- The call `plane.IntersectMesh(mesh)`: the plane the library receives,
recorded as one entry of the call log, and the contours the library
returns. -/
def Ln.intersect {Mesh Matrix : Type} (L : Ln Mesh Matrix) (plane : Plane) (mesh : Mesh) :
    List Plane × Paths :=
  ([plane], L.IntersectMesh plane mesh)

/-- Iteration `i` of `Slice.Layout` from `slice := ...` to the third
`Transform`: the planes it handed to `IntersectMesh` and the local `paths`
when the projection loop starts. -/
def sliceGeometry {Mesh Matrix : Type} (L : Ln Mesh Matrix) (scene : Slice Mesh)
    (size : ImagePoint) (i : Int) : List Plane × Paths :=
  let plane := slicePlane scene.Slices i
  let intersected := L.intersect plane scene.Mesh
  let paths := L.Simplify intersected.2 (1 / 1000000)
  (intersected.1, renderPaths L scene size paths)

/-- The local `paths` of iteration `i` when the projection loop starts. -/
def slicePaths {Mesh Matrix : Type} (L : Ln Mesh Matrix) (scene : Slice Mesh)
    (size : ImagePoint) (i : Int) : Paths :=
  (sliceGeometry L scene size i).2

/-- The closure run by iteration `i` of `Slice.Layout`: the planes its
`IntersectMesh` call received and the calls it makes on `gtx.Ops` (the
deferred `Load` last). -/
def sliceBody {Mesh Matrix : Type} (L : Ln Mesh Matrix) (scene : Slice Mesh)
    (size : ImagePoint) (i : Int) : Option (List Plane × List Op) :=
  let slice := sliceOffset scene.Slices i
  let geometry := sliceGeometry L scene size i
  let h : ℚ := (size.Y : ℚ)
  match projectPaths h geometry.2 with
  | none => none
  | some cmds =>
    some (geometry.1, [Op.Save, Op.PathBegin] ++ cmds ++
      [Op.Stroke 3, Op.ColorOp (Color.HSL slice (3 / 5) (3 / 5)), Op.PaintOp, Op.Load])

/-- The loop `for i := 0; i < scene.Slices; i++ { func() { ... }() }` run over
the indices it visits; a panic in one iteration ends the run. -/
def sliceLoop (body : Int → Option (List Plane × List Op)) :
    List Nat → Option (List Plane × List Op)
  | [] => some ([], [])
  | i :: rest =>
    match body (i : Int) with
    | none => none
    | some (called, ops) =>
      match sliceLoop body rest with
      | none => none
      | some (planes, more) => some (called ++ planes, ops ++ more)

/-- The method `Slice.Layout`.  The loop visits `i = 0, 1, ...` while
`i < scene.Slices`, that is the indices below `scene.Slices.toNat`. -/
def Slice.Layout {Mesh Matrix : Type} (L : Ln Mesh Matrix) (scene : Slice Mesh)
    (gtx : Context) : Option Frame :=
  let size := gtx.Max
  match sliceLoop (sliceBody L scene size) (List.range scene.Slices.toNat) with
  | none => none
  | some (planes, ops) =>
    some { planes := planes, ops := Op.InvalidateOp :: ops, Size := size }

/-- The struct `UI` (the theme plays no part in what is computed). -/
structure UI (Mesh : Type) where
  Mesh : Mesh

/-- The `Slice` literal built by `UI.Layout`:
`RotY: float64(gtx.Now.UnixNano()/1e6) * 0.001`, the division being the
truncating `int64` division. -/
def UI.slice {Mesh : Type} (ui : UI Mesh) (gtx : Context) : Slice Mesh :=
  { Mesh := ui.Mesh,
    RotY := ((Int.tdiv gtx.Now 1000000 : Int) : ℚ) * (1 / 1000),
    Eye := ⟨-(1 / 2), 1 / 2, 2⟩,
    Up := ⟨0, 1, 0⟩,
    Center := ⟨0, 0, 0⟩,
    Slices := 128 }

/-- The method `UI.Layout`. -/
def UI.Layout {Mesh Matrix : Type} (L : Ln Mesh Matrix) (ui : UI Mesh)
    (gtx : Context) : Option Frame :=
  Slice.Layout L (UI.slice ui gtx) gtx

end Slicer

namespace Circles

/-- The smallest `int64`, also the smallest `time.Duration`. -/
def minInt64 : Int := -(2 ^ 63)

/-- The largest `int64`, also the largest `time.Duration`. -/
def maxInt64 : Int := 2 ^ 63 - 1

/-- The result of an `int64` operation whose exact value is `x`: the sum
wraps around into `[-2^63, 2^63)`. -/
def wrapInt64 (x : Int) : Int :=
  (x + 2 ^ 63) % 2 ^ 64 - 2 ^ 63

/-- The constant `time.Millisecond`, in nanoseconds. -/
def Millisecond : Int := 1000000

/-- A `time.Time` as the number of nanoseconds since the zero time
(January 1, year 1, 00:00:00 UTC); a time is one instant, its wall clock
and monotonic clock readings are not told apart. -/
structure Time where
  ns : Int
  deriving DecidableEq

/-- The method `Time.IsZero`. -/
def Time.IsZero (t : Time) : Bool :=
  t.ns == 0

/-- The method `Time.Sub`: the duration `t - u`, the largest (smallest)
duration when the difference is above (below) what a duration can store. -/
def Time.Sub (t u : Time) : Int :=
  if t.ns - u.ns > maxInt64 then maxInt64
  else if t.ns - u.ns < minInt64 then minInt64
  else t.ns - u.ns

/-- The struct `Animation`; `progress` and `duration` are `time.Duration`
values (nanoseconds, `int64`). -/
structure Animation where
  now : Time
  progress : Int
  duration : Int
  deriving DecidableEq

/-- The function `NewAnimation`. -/
def NewAnimation (duration : Int) : Animation :=
  { now := ⟨0⟩, progress := 0, duration := duration }

/-- What one call of `Animation.Update` leaves behind: the animation after
the call and whether `op.InvalidateOp{}.Add(gtx.Ops)` was called. -/
structure Updated where
  anim : Animation
  invalidated : Bool
  deriving DecidableEq

/-- The local `delta` of `Animation.Update` before it is capped:
`gtx.Now.Sub(anim.now)`, with `anim.now` first set to `gtx.Now` when it is
the zero time. -/
def Animation.delta (anim : Animation) (gtxNow : Time) : Int :=
  let now := if anim.now.IsZero then gtxNow else anim.now
  gtxNow.Sub now

/-- The method `Animation.Update` with `gtx.Now = gtxNow`.  The returned
ratio `float32(float64(anim.progress) / float64(anim.duration))` is computed
from the stored fields after the update and is not part of the state. -/
def Animation.Update (anim : Animation) (gtxNow : Time) : Updated :=
  let delta := anim.delta gtxNow
  let delta := if delta > 15 * Millisecond then 15 * Millisecond else delta
  if anim.progress < anim.duration then
    let progress := wrapInt64 (anim.progress + delta)
    let progress := if progress > anim.duration then anim.duration else progress
    { anim := { now := gtxNow, progress := progress, duration := anim.duration },
      invalidated := true }
  else
    { anim := { now := gtxNow, progress := anim.progress, duration := anim.duration },
      invalidated := false }

/-- An animation in progress whose duration is the largest `time.Duration`
and whose progress is one nanosecond short of it. -/
def longAnimation : Animation :=
  { now := ⟨1⟩, progress := 2 ^ 63 - 2, duration := 2 ^ 63 - 1 }

/-- An animation of 1500 ms that has run for 1490 ms. -/
def demoAnimation : Animation :=
  { now := ⟨5000000000⟩, progress := 1490000000, duration := 1500000000 }

end Circles

/-! ## Definitions used to state the properties -/

namespace Slicer

/-- The commands of one open polyline: a `MoveTo` for the first vertex and a
`LineTo` for every later vertex, in order; nothing for an empty contour. -/
def polyline (h : ℚ) : Path → List Op
  | [] => []
  | v0 :: rest => Op.MoveTo (f64pt v0 h) :: rest.map (fun v => Op.LineTo (f64pt v h))

/-- Whether a call is a `MoveTo`. -/
def Op.isMoveTo : Op → Bool
  | Op.MoveTo _ => true
  | _ => false

/-- The widths of the strokes of a draw list, in draw order. -/
def strokeWidths (ops : List Op) : List ℚ :=
  ops.filterMap (fun o => match o with
    | Op.Stroke w => some w
    | _ => none)

/-- The colours of the `ColorOp`s of a draw list, in draw order. -/
def colors (ops : List Op) : List Color :=
  ops.filterMap (fun o => match o with
    | Op.ColorOp c => some c
    | _ => none)

/-- The calls iteration `i` of `Slice.Layout` is expected to make: the
polylines of its contours between `Save`, `PathBegin` and the stroke of
width 3, the colour of the slice, the paint and the `Load`. -/
def sliceOps {Mesh Matrix : Type} (L : Ln Mesh Matrix) (scene : Slice Mesh)
    (size : ImagePoint) (i : Int) : List Op :=
  [Op.Save, Op.PathBegin] ++
    ((slicePaths L scene size i).map (polyline (size.Y : ℚ))).flatten ++
    [Op.Stroke 3, Op.ColorOp (Color.HSL (sliceOffset scene.Slices i) (3 / 5) (3 / 5)),
      Op.PaintOp, Op.Load]

/-- Scaling a point by the components of `s`: the stage `Scale(s)`. -/
def scaleBy (s p : Vector) : Vector :=
  ⟨s.X * p.X, s.Y * p.Y, s.Z * p.Z⟩

/-- Translating a point by `t`: the stage `Translate(t)`. -/
def translateBy (t p : Vector) : Vector :=
  ⟨p.X + t.X, p.Y + t.Y, p.Z + t.Z⟩

/-- The stage `Screen` for a viewport of `w` by `h` pixels: translate by
`(1, 1, 0)`, then scale by `(w/2, h/2, 0)`. -/
def screenMap (w h : ℚ) (p : Vector) : Vector :=
  scaleBy ⟨w / 2, h / 2, 0⟩ (translateBy ⟨1, 1, 0⟩ p)

/-- The contract of the builder methods of `ln` that `Slice.Layout` relies
on, `persp fovy aspect near far` being the perspective stage as a map of
points: `m.Scale(s)` transforms by `m` and then scales, `Translate(t)`
translates, and `LookAt(e, c, u).Perspective(...)` transforms by the
look-at matrix and then applies the perspective stage. -/
structure StageLaws {Mesh Matrix : Type} (L : Ln Mesh Matrix)
    (persp : ℚ → ℚ → ℚ → ℚ → Vector → Vector) : Prop where
  scale : ∀ (m : Matrix) (s p : Vector),
    L.MulPosition (L.Scale m s) p = scaleBy s (L.MulPosition m p)
  translate : ∀ (t p : Vector), L.MulPosition (L.Translate t) p = translateBy t p
  perspective : ∀ (e c u : Vector) (fovy aspect near far : ℚ) (p : Vector),
    L.MulPosition (L.Perspective (L.LookAt e c u) fovy aspect near far) p =
      persp fovy aspect near far (L.MulPosition (L.LookAt e c u) p)

/-- The composed transform `Screen ∘ Perspective(35, w/h, 0.1, 100) ∘
LookAt(eye, center, up) ∘ Scale(0.5) ∘ RotateY(θ)` as a map of points. -/
def composedMap {Mesh Matrix : Type} (L : Ln Mesh Matrix)
    (persp : ℚ → ℚ → ℚ → ℚ → Vector → Vector) (scene : Slice Mesh) (size : ImagePoint)
    (v : Vector) : Vector :=
  screenMap (size.X : ℚ) (size.Y : ℚ)
    (persp 35 ((size.X : ℚ) / (size.Y : ℚ)) (1 / 10) 100
      (L.MulPosition (L.LookAt scene.Eye scene.Center scene.Up)
        (scaleBy ⟨1 / 2, 1 / 2, 1 / 2⟩
          (L.MulPosition (L.Rotate ⟨0, 1, 0⟩ scene.RotY) v))))

/-- A perspective stage for `pointLn`: divide `X` by the aspect ratio. -/
def pointPersp (_fovy aspect _near _far : ℚ) (p : Vector) : Vector :=
  ⟨p.X / aspect, p.Y, p.Z⟩

/-- A small instance of the library interface in which a matrix is the map
of points it stands for and a mesh is a list of contours, each of which a
plane cuts at the height of the plane. -/
def pointLn : Ln Paths (Vector → Vector) where
  Rotate := fun _ a p => ⟨p.X + a * p.Z, p.Y, p.Z - a * p.X⟩
  LookAt := fun e _ _ p => ⟨p.X - e.X, p.Y - e.Y, p.Z - e.Z⟩
  Translate := fun t p => translateBy t p
  Scale := fun m s p => scaleBy s (m p)
  Perspective := fun m fovy aspect near far p => pointPersp fovy aspect near far (m p)
  MulPosition := fun m p => m p
  IntersectMesh := fun plane mesh =>
    mesh.map (fun path => path.map (fun v => ⟨v.X, plane.Point.Y, v.Z⟩))
  Simplify := fun paths _ => paths
  Render := fun s _ _ _ _ _ _ _ _ _ =>
    match s with
    | Shape.mesh m => m
    | Shape.transformed m matrix => m.map (fun path => path.map matrix)

/-- A mesh for `pointLn` with one two-point contour. -/
def segmentMesh : Paths := [[⟨-1, 0, 0⟩, ⟨1, 0, 0⟩]]

/-- A mesh for `pointLn` whose only contour has no vertex. -/
def emptyContourMesh : Paths := [[]]

/-- A `Slice` over `pointLn` with two slices of the one-segment mesh. -/
def demoSlice : Slice Paths :=
  { Mesh := segmentMesh, Slices := 2, RotY := 1 / 4,
    Eye := ⟨-(1 / 2), 1 / 2, 2⟩, Up := ⟨0, 1, 0⟩, Center := ⟨0, 0, 0⟩ }

/-- A frame context with a viewport of 800 by 600 pixels. -/
def demoContext : Context :=
  { Max := ⟨800, 600⟩, Now := 250000000 }

/-- A second `Slice` with the slice count of `demoSlice` and another mesh,
rotation angle and eye. -/
def otherSlice : Slice Paths :=
  { Mesh := [[⟨-1, 0, 0⟩, ⟨1, 0, 0⟩, ⟨1, 0, 1⟩], [⟨0, 0, -1⟩, ⟨0, 0, 1⟩]], Slices := 2,
    RotY := 7, Eye := ⟨3, 1, 1⟩, Up := ⟨0, 1, 0⟩, Center := ⟨0, 0, 0⟩ }

/-- A later frame context with a viewport of 1024 by 768 pixels. -/
def otherContext : Context :=
  { Max := ⟨1024, 768⟩, Now := 7000000000 }

/-- A `Slice` with one slice of the one-segment mesh. -/
def singleSlice : Slice Paths :=
  { Mesh := segmentMesh, Slices := 1, RotY := 0,
    Eye := ⟨-(1 / 2), 1 / 2, 2⟩, Up := ⟨0, 1, 0⟩, Center := ⟨0, 0, 0⟩ }

/-- A `Slice` with one slice of the mesh whose contour has no vertex. -/
def emptyContourSlice : Slice Paths :=
  { Mesh := emptyContourMesh, Slices := 1, RotY := 0,
    Eye := ⟨-(1 / 2), 1 / 2, 2⟩, Up := ⟨0, 1, 0⟩, Center := ⟨0, 0, 0⟩ }

/-- A `Slice` with two slices of a mesh that has a two-point contour and a
contour with no vertex. -/
def gapSlice : Slice Paths :=
  { Mesh := [[⟨-1, 0, 0⟩, ⟨1, 0, 0⟩], []], Slices := 2, RotY := 0,
    Eye := ⟨-(1 / 2), 1 / 2, 2⟩, Up := ⟨0, 1, 0⟩, Center := ⟨0, 0, 0⟩ }

/-- A `Scene` of the mesh whose contour has no vertex. -/
def emptyContourScene : Scene Paths :=
  { Mesh := emptyContourMesh, RotY := 0,
    Eye := ⟨-(1 / 2), 1 / 2, 2⟩, Up := ⟨0, 1, 0⟩, Center := ⟨0, 0, 0⟩ }

/-- The paths `Scene.Layout` hands to its projection loop. -/
def scenePaths {Mesh Matrix : Type} (L : Ln Mesh Matrix) (scene : Scene Mesh)
    (gtx : Context) : Paths :=
  L.Render
    (if scene.RotY ≠ 0 then Shape.transformed scene.Mesh (L.Rotate ⟨0, 1, 0⟩ scene.RotY)
     else Shape.mesh scene.Mesh)
    scene.Eye scene.Center scene.Up (gtx.Max.X : ℚ) (gtx.Max.Y : ℚ) 35 (1 / 10) 100 (1 / 100)

end Slicer

/-! ## The projection loop -/

namespace Slicer

theorem pathOps_of_ne_nil (h : ℚ) (path : Path) (hne : path ≠ []) :
    pathOps h path = some (polyline h path) := by
  cases path with
  | nil => exact absurd rfl hne
  | cons v0 rest => rfl

theorem projectPaths_of_nonempty (h : ℚ) (paths : Paths)
    (hne : ∀ path ∈ paths, path ≠ []) :
    projectPaths h paths = some ((paths.map (polyline h)).flatten) := by
  induction paths with
  | nil => rfl
  | cons path rest ih =>
    have h1 : pathOps h path = some (polyline h path) :=
      pathOps_of_ne_nil h path (hne path (List.mem_cons_self _ _))
    have h2 := ih (fun q hq => hne q (List.mem_cons_of_mem _ hq))
    simp [projectPaths, h1, h2]

theorem projectPaths_of_mem_nil (h : ℚ) (paths : Paths) (hmem : [] ∈ paths) :
    projectPaths h paths = none := by
  induction paths with
  | nil => simp at hmem
  | cons path rest ih =>
    cases path with
    | nil => simp [projectPaths, pathOps]
    | cons v0 vs =>
      have hrest : [] ∈ rest := by simpa using hmem
      simp [projectPaths, pathOps, ih hrest]

theorem projectPaths_eq_none_iff (h : ℚ) (paths : Paths) :
    projectPaths h paths = none ↔ [] ∈ paths := by
  constructor
  · intro hnone
    by_contra hmem
    have hne : ∀ path ∈ paths, path ≠ [] := by
      intro path hp hnil
      exact hmem (hnil ▸ hp)
    rw [projectPaths_of_nonempty h paths hne] at hnone
    exact Option.noConfusion hnone
  · exact projectPaths_of_mem_nil h paths

theorem length_polyline (h : ℚ) (path : Path) : (polyline h path).length = path.length := by
  cases path <;> simp [polyline]

theorem countMoveTo_polyline (h : ℚ) (path : Path) (hne : path ≠ []) :
    ((polyline h path).filter Op.isMoveTo).length = 1 := by
  cases path with
  | nil => exact absurd rfl hne
  | cons v0 rest =>
    have hrest : (rest.map (fun v => Op.LineTo (f64pt v h))).filter Op.isMoveTo = [] := by
      induction rest with
      | nil => rfl
      | cons a t ih => simp [Op.isMoveTo]
    simp [polyline, Op.isMoveTo, hrest]

theorem strokeWidths_polyline (h : ℚ) (path : Path) : strokeWidths (polyline h path) = [] := by
  cases path <;> simp [polyline, strokeWidths]

theorem colors_polyline (h : ℚ) (path : Path) : colors (polyline h path) = [] := by
  cases path <;> simp [polyline, colors]

theorem strokeWidths_polylines (h : ℚ) (paths : Paths) :
    strokeWidths ((paths.map (polyline h)).flatten) = [] := by
  induction paths with
  | nil => rfl
  | cons path rest ih =>
    have h1 := strokeWidths_polyline h path
    unfold strokeWidths at h1 ih ⊢
    simp [List.filterMap_append, h1, ih]

theorem colors_polylines (h : ℚ) (paths : Paths) :
    colors ((paths.map (polyline h)).flatten) = [] := by
  induction paths with
  | nil => rfl
  | cons path rest ih =>
    have h1 := colors_polyline h path
    unfold colors at h1 ih ⊢
    simp [List.filterMap_append, h1, ih]

theorem strokeWidths_sliceOps {Mesh Matrix : Type} (L : Ln Mesh Matrix) (scene : Slice Mesh)
    (size : ImagePoint) (i : Int) : strokeWidths (sliceOps L scene size i) = [3] := by
  have h1 := strokeWidths_polylines (size.Y : ℚ) (slicePaths L scene size i)
  unfold strokeWidths at h1 ⊢
  simp [sliceOps, List.filterMap_append, h1]

theorem colors_sliceOps {Mesh Matrix : Type} (L : Ln Mesh Matrix) (scene : Slice Mesh)
    (size : ImagePoint) (i : Int) :
    colors (sliceOps L scene size i) =
      [Color.HSL (sliceOffset scene.Slices i) (3 / 5) (3 / 5)] := by
  have h1 := colors_polylines (size.Y : ℚ) (slicePaths L scene size i)
  unfold colors at h1 ⊢
  simp [sliceOps, List.filterMap_append, h1]

/-! ## The slice loop -/

theorem sliceBody_of_nonempty {Mesh Matrix : Type} (L : Ln Mesh Matrix) (scene : Slice Mesh)
    (size : ImagePoint) (i : Int) (hne : [] ∉ slicePaths L scene size i) :
    sliceBody L scene size i = some ([slicePlane scene.Slices i], sliceOps L scene size i) := by
  have h1 : projectPaths (size.Y : ℚ) (slicePaths L scene size i) =
      some (((slicePaths L scene size i).map (polyline (size.Y : ℚ))).flatten) :=
    projectPaths_of_nonempty _ _ (fun path hp hnil => hne (hnil ▸ hp))
  have hlog : (sliceGeometry L scene size i).1 = [slicePlane scene.Slices i] := rfl
  simp only [slicePaths] at h1
  simp only [sliceBody, h1, sliceOps, slicePaths, hlog]

theorem sliceBody_of_mem_nil {Mesh Matrix : Type} (L : Ln Mesh Matrix) (scene : Slice Mesh)
    (size : ImagePoint) (i : Int) (hmem : [] ∈ slicePaths L scene size i) :
    sliceBody L scene size i = none := by
  have h1 := projectPaths_of_mem_nil (size.Y : ℚ) _ hmem
  simp only [slicePaths] at h1
  simp only [sliceBody, h1]

theorem sliceLoop_of_nonempty {Mesh Matrix : Type} (L : Ln Mesh Matrix) (scene : Slice Mesh)
    (size : ImagePoint) (idx : List Nat)
    (hne : ∀ i ∈ idx, [] ∉ slicePaths L scene size (i : Int)) :
    sliceLoop (sliceBody L scene size) idx =
      some (idx.map (fun (i : Nat) => slicePlane scene.Slices (i : Int)),
        (idx.map (fun (i : Nat) => sliceOps L scene size (i : Int))).flatten) := by
  induction idx with
  | nil => rfl
  | cons i rest ih =>
    have h1 := sliceBody_of_nonempty L scene size (i : Int) (hne i (List.mem_cons_self _ _))
    have h2 := ih (fun j hj => hne j (List.mem_cons_of_mem _ hj))
    simp [sliceLoop, h1, h2]

theorem sliceLoop_of_mem_nil {Mesh Matrix : Type} (L : Ln Mesh Matrix) (scene : Slice Mesh)
    (size : ImagePoint) (idx : List Nat)
    (hmem : ∃ i ∈ idx, [] ∈ slicePaths L scene size (i : Int)) :
    sliceLoop (sliceBody L scene size) idx = none := by
  induction idx with
  | nil => simp at hmem
  | cons i rest ih =>
    by_cases hi : [] ∈ slicePaths L scene size (i : Int)
    · simp [sliceLoop, sliceBody_of_mem_nil L scene size (i : Int) hi]
    · have hrest : ∃ j ∈ rest, [] ∈ slicePaths L scene size (j : Int) := by
        obtain ⟨j, hj, hjm⟩ := hmem
        rcases List.mem_cons.mp hj with rfl | hj2
        · exact absurd hjm hi
        · exact ⟨j, hj2, hjm⟩
      simp [sliceLoop, sliceBody_of_nonempty L scene size (i : Int) hi, ih hrest]

theorem Layout_of_nonempty {Mesh Matrix : Type} (L : Ln Mesh Matrix) (scene : Slice Mesh)
    (gtx : Context)
    (hne : ∀ i ∈ List.range scene.Slices.toNat, [] ∉ slicePaths L scene gtx.Max (i : Int)) :
    Slice.Layout L scene gtx =
      some { planes := (List.range scene.Slices.toNat).map
               (fun (i : Nat) => slicePlane scene.Slices (i : Int)),
             ops := Op.InvalidateOp :: ((List.range scene.Slices.toNat).map
               (fun (i : Nat) => sliceOps L scene gtx.Max (i : Int))).flatten,
             Size := gtx.Max } := by
  simp only [Slice.Layout, sliceLoop_of_nonempty L scene gtx.Max _ hne]

theorem Layout_of_mem_nil {Mesh Matrix : Type} (L : Ln Mesh Matrix) (scene : Slice Mesh)
    (gtx : Context)
    (hmem : ∃ i ∈ List.range scene.Slices.toNat, [] ∈ slicePaths L scene gtx.Max (i : Int)) :
    Slice.Layout L scene gtx = none := by
  simp only [Slice.Layout, sliceLoop_of_mem_nil L scene gtx.Max _ hmem]

theorem Layout_some_nonempty {Mesh Matrix : Type} (L : Ln Mesh Matrix) (scene : Slice Mesh)
    (gtx : Context) (f : Frame) (hf : Slice.Layout L scene gtx = some f) :
    ∀ i ∈ List.range scene.Slices.toNat, [] ∉ slicePaths L scene gtx.Max (i : Int) := by
  intro i hi hmem
  rw [Layout_of_mem_nil L scene gtx ⟨i, hi, hmem⟩] at hf
  exact Option.noConfusion hf

theorem strokeWidths_slices {Mesh Matrix : Type} (L : Ln Mesh Matrix) (scene : Slice Mesh)
    (size : ImagePoint) (idx : List Nat) :
    strokeWidths ((idx.map (fun (i : Nat) => sliceOps L scene size (i : Int))).flatten) =
      List.replicate idx.length 3 := by
  induction idx with
  | nil => rfl
  | cons i rest ih =>
    have h1 := strokeWidths_sliceOps L scene size (i : Int)
    unfold strokeWidths at h1 ih ⊢
    simp [List.filterMap_append, h1, ih, List.replicate_succ]

theorem colors_slices {Mesh Matrix : Type} (L : Ln Mesh Matrix) (scene : Slice Mesh)
    (size : ImagePoint) (idx : List Nat) :
    colors ((idx.map (fun (i : Nat) => sliceOps L scene size (i : Int))).flatten) =
      idx.map (fun (i : Nat) => Color.HSL (sliceOffset scene.Slices (i : Int)) (3 / 5) (3 / 5)) := by
  induction idx with
  | nil => rfl
  | cons i rest ih =>
    have h1 := colors_sliceOps L scene size (i : Int)
    unfold colors at h1 ih ⊢
    simp [List.filterMap_append, h1, ih]

end Slicer

/-! ## Properties of the slicer -/

namespace Slicer

theorem demoSlice_nonempty :
    ∀ i ∈ List.range demoSlice.Slices.toNat,
      [] ∉ slicePaths pointLn demoSlice demoContext.Max (i : Int) := by
  intro i _
  simp [slicePaths, sliceGeometry, Ln.intersect, renderPaths, Ln.Transform, pointLn, demoSlice,
    segmentMesh]

/-- C1: for a slice count `N > 0` and an index `i < N`, the plane that
`Slice.Layout` builds and intersects in iteration `i` has point
`(0, s_i, 0)` and normal `(0, 1, 0)` with `s_i = i/N*2 - 1`; `s_0 = -1`,
`s_(N-1) = 1 - 2/N`, consecutive offsets differ by `2/N` (so they increase
strictly) and every `s_i` lies in `[-1, 1)`. -/
theorem slice_planes_evenly_spaced {Mesh Matrix : Type} (L : Ln Mesh Matrix)
    (scene : Slice Mesh) (gtx : Context) (f : Frame) (i : Nat)
    (hN : 0 < scene.Slices) (hi : (i : Int) < scene.Slices)
    (hf : Slice.Layout L scene gtx = some f) :
    f.planes[i]? = some { Point := ⟨0, (i : ℚ) / (scene.Slices : ℚ) * 2 - 1, 0⟩,
                          Normal := ⟨0, 1, 0⟩ } ∧
    slicePlane scene.Slices i =
      { Point := ⟨0, (i : ℚ) / (scene.Slices : ℚ) * 2 - 1, 0⟩, Normal := ⟨0, 1, 0⟩ } ∧
    sliceOffset scene.Slices 0 = -1 ∧
    sliceOffset scene.Slices (scene.Slices - 1) = 1 - 2 / (scene.Slices : ℚ) ∧
    ((i : Int) + 1 < scene.Slices →
      sliceOffset scene.Slices ((i : Int) + 1) - sliceOffset scene.Slices i =
        2 / (scene.Slices : ℚ) ∧
      sliceOffset scene.Slices i < sliceOffset scene.Slices ((i : Int) + 1)) ∧
    -1 ≤ sliceOffset scene.Slices i ∧ sliceOffset scene.Slices i < 1 := by
  have hNq : (0 : ℚ) < (scene.Slices : ℚ) := by exact_mod_cast hN
  have hNne : (scene.Slices : ℚ) ≠ 0 := ne_of_gt hNq
  have hiq : ((i : Int) : ℚ) < (scene.Slices : ℚ) := by exact_mod_cast hi
  have hi0 : (0 : ℚ) ≤ ((i : Int) : ℚ) := by exact_mod_cast Int.natCast_nonneg i
  have hstep : sliceOffset scene.Slices ((i : Int) + 1) - sliceOffset scene.Slices i =
      2 / (scene.Slices : ℚ) := by
    simp only [sliceOffset]
    push_cast
    field_simp
    ring
  have hpos : (0 : ℚ) < 2 / (scene.Slices : ℚ) := div_pos (by norm_num) hNq
  refine ⟨?_, ?_, ?_, ?_, ?_, ?_, ?_⟩
  · have hne := Layout_some_nonempty L scene gtx f hf
    have hf2 := Layout_of_nonempty L scene gtx hne
    rw [hf] at hf2
    have hfe := Option.some.inj hf2
    have hlt : i < scene.Slices.toNat := by omega
    rw [hfe]
    simp [List.getElem?_map, List.getElem?_range hlt, slicePlane, sliceOffset]
  · simp [slicePlane, sliceOffset]
  · simp [sliceOffset]
  · simp only [sliceOffset]
    push_cast
    field_simp
    ring
  · intro _
    exact ⟨hstep, by linarith⟩
  · simp only [sliceOffset]
    have : (0 : ℚ) ≤ ((i : Int) : ℚ) / (scene.Slices : ℚ) := div_nonneg hi0 (le_of_lt hNq)
    linarith
  · simp only [sliceOffset]
    have : ((i : Int) : ℚ) / (scene.Slices : ℚ) < 1 := (div_lt_one hNq).mpr hiq
    linarith

/-- The property C1 at the second of the two slices of `demoSlice`. -/
theorem slice_planes_evenly_spaced_witness :
    (0 : Int) < 2 ∧ ((1 : Nat) : Int) < 2 ∧
    slicePlane 2 1 = { Point := ⟨0, 0, 0⟩, Normal := ⟨0, 1, 0⟩ } ∧
    sliceOffset 2 0 = -1 ∧ sliceOffset 2 1 = 0 := by
  have h := slice_planes_evenly_spaced pointLn demoSlice demoContext _ 1
    (by decide) (by decide) (Layout_of_nonempty pointLn demoSlice demoContext demoSlice_nonempty)
  have h2 := h.2.1
  have h3 := h.2.2.1
  have h4 := h.2.2.2.1
  norm_num [demoSlice] at h2 h3 h4
  exact ⟨by decide, by decide, h2, h3, h4⟩

/-- C2, as the code has it: when no contour handed to the projection loop
is empty, `Slice.Layout` returns a frame for which `IntersectMesh` received
exactly the planes of the indices `0, ..., N-1` in increasing order and
whose draw list is the invalidate call followed by the calls of slice `0`,
slice `1`, ... in that order, each slice with one stroke of width 3; with
`N = 0` the frame is produced with no plane and no stroke, whatever the
other inputs are; when some slice has an empty contour no frame is
produced. -/
theorem Layout_strokes_in_plane_order {Mesh Matrix : Type} (L : Ln Mesh Matrix)
    (scene : Slice Mesh) (gtx : Context) :
    ((∀ i : Nat, (i : Int) < scene.Slices → [] ∉ slicePaths L scene gtx.Max (i : Int)) →
      ∃ f, Slice.Layout L scene gtx = some f ∧
        f.planes = (List.range scene.Slices.toNat).map
          (fun (i : Nat) => slicePlane scene.Slices (i : Int)) ∧
        f.planes.length = scene.Slices.toNat ∧
        f.ops = Op.InvalidateOp :: ((List.range scene.Slices.toNat).map
          (fun (i : Nat) => sliceOps L scene gtx.Max (i : Int))).flatten ∧
        strokeWidths f.ops = List.replicate scene.Slices.toNat 3) ∧
    (scene.Slices = 0 →
      Slice.Layout L scene gtx =
        some { planes := [], ops := [Op.InvalidateOp], Size := gtx.Max } ∧
      strokeWidths [Op.InvalidateOp] = []) ∧
    ((∃ i : Nat, (i : Int) < scene.Slices ∧ [] ∈ slicePaths L scene gtx.Max (i : Int)) →
      Slice.Layout L scene gtx = none) := by
  refine ⟨?_, ?_, ?_⟩
  · intro hne
    have hne2 : ∀ i ∈ List.range scene.Slices.toNat,
        [] ∉ slicePaths L scene gtx.Max (i : Int) := by
      intro i hi
      have hlt : i < scene.Slices.toNat := List.mem_range.mp hi
      exact hne i (by omega)
    refine ⟨_, Layout_of_nonempty L scene gtx hne2, rfl, by simp, rfl, ?_⟩
    have hs := strokeWidths_slices L scene gtx.Max (List.range scene.Slices.toNat)
    unfold strokeWidths at hs ⊢
    simp [hs]
  · intro h0
    refine ⟨?_, rfl⟩
    simp [Slice.Layout, h0, sliceLoop]
  · rintro ⟨i, hi, hmem⟩
    exact Layout_of_mem_nil L scene gtx ⟨i, List.mem_range.mpr (by omega), hmem⟩

/-- The amended C2 at `demoSlice`: the two planes at heights `-1` and `0`
are intersected in that order and the draw list has two strokes of
width 3. -/
theorem Layout_strokes_in_plane_order_witness :
    ∃ f, Slice.Layout pointLn demoSlice demoContext = some f ∧
      f.planes = [{ Point := ⟨0, -1, 0⟩, Normal := ⟨0, 1, 0⟩ },
                  { Point := ⟨0, 0, 0⟩, Normal := ⟨0, 1, 0⟩ }] ∧
      f.planes.length = 2 ∧ strokeWidths f.ops = [3, 3] := by
  obtain ⟨f, hf, hpl, hlen, _, hst⟩ :=
    (Layout_strokes_in_plane_order pointLn demoSlice demoContext).1
      (by
        intro i _
        simp [slicePaths, sliceGeometry, Ln.intersect, renderPaths, Ln.Transform, pointLn,
          demoSlice, segmentMesh])
  have h2 : Int.toNat 2 = 2 := rfl
  refine ⟨f, hf, ?_, ?_, ?_⟩
  · rw [hpl]
    norm_num [demoSlice, h2, List.range_succ, slicePlane, sliceOffset]
  · simpa [demoSlice] using hlen
  · simpa [demoSlice, List.replicate] using hst

/-- C2 fails as stated: with `N = 2` and a mesh that has a contour without
a vertex, `Slice.Layout` returns no frame, so no stroke of any plane is
appended to a draw list. -/
theorem Layout_no_frame_on_empty_contour :
    (0 : Int) ≤ gapSlice.Slices ∧
    Slice.Layout pointLn gapSlice demoContext = none ∧
    ¬ ∃ f, Slice.Layout pointLn gapSlice demoContext = some f ∧
      strokeWidths f.ops = List.replicate gapSlice.Slices.toNat 3 := by
  have hnone : Slice.Layout pointLn gapSlice demoContext = none := by
    apply Layout_of_mem_nil
    refine ⟨0, by simp [gapSlice], ?_⟩
    simp [slicePaths, sliceGeometry, Ln.intersect, renderPaths, Ln.Transform, pointLn, gapSlice]
  refine ⟨by decide, hnone, ?_⟩
  rintro ⟨f, hf, _⟩
  rw [hnone] at hf
  exact Option.noConfusion hf

/-- C3: under the contract of the builder methods (`StageLaws`), every
vertex `v` of the contours of slice `i` reaches the pixel mapping as
`Screen(Perspective(35, w/h, 0.1, 100)(LookAt(eye, center, up)(Scale(0.5)
(RotateY(θ)(v)))))`: the three successive `Transform` calls are one
transform by the composed map, applied vertex by vertex. -/
theorem Layout_transform_order {Mesh Matrix : Type} (L : Ln Mesh Matrix)
    (persp : ℚ → ℚ → ℚ → ℚ → Vector → Vector) (hL : StageLaws L persp)
    (scene : Slice Mesh) (size : ImagePoint) :
    (∀ v : Vector,
      L.MulPosition (screenMatrix L size)
        (L.MulPosition (viewMatrix L scene.Eye scene.Center scene.Up size)
          (L.MulPosition (rotationMatrix L scene.RotY) v)) =
      screenMap (size.X : ℚ) (size.Y : ℚ)
        (persp 35 ((size.X : ℚ) / (size.Y : ℚ)) (1 / 10) 100
          (L.MulPosition (L.LookAt scene.Eye scene.Center scene.Up)
            (scaleBy ⟨1 / 2, 1 / 2, 1 / 2⟩
              (L.MulPosition (L.Rotate ⟨0, 1, 0⟩ scene.RotY) v))))) ∧
    (∀ paths : Paths,
      renderPaths L scene size paths =
        paths.map (fun path => path.map (composedMap L persp scene size))) ∧
    (∀ i : Int,
      slicePaths L scene size i =
        (L.Simplify (L.IntersectMesh (slicePlane scene.Slices i) scene.Mesh)
          (1 / 1000000)).map (fun path => path.map (composedMap L persp scene size))) := by
  have hpt : ∀ v : Vector,
      L.MulPosition (screenMatrix L size)
        (L.MulPosition (viewMatrix L scene.Eye scene.Center scene.Up size)
          (L.MulPosition (rotationMatrix L scene.RotY) v)) =
      composedMap L persp scene size v := by
    intro v
    simp only [screenMatrix, viewMatrix, rotationMatrix, composedMap, screenMap,
      hL.scale, hL.translate, hL.perspective]
  have hpaths : ∀ paths : Paths,
      renderPaths L scene size paths =
        paths.map (fun path => path.map (composedMap L persp scene size)) := by
    intro paths
    simp only [renderPaths, Ln.Transform, List.map_map]
    apply List.map_congr_left
    intro path _
    simp only [Function.comp_apply, List.map_map]
    apply List.map_congr_left
    intro v _
    simpa using hpt v
  refine ⟨fun v => by rw [hpt v]; rfl, hpaths, ?_⟩
  intro i
  simp only [slicePaths, sliceGeometry, Ln.intersect, hpaths]

/-- The property C3 for `pointLn`, whose builder methods keep the contract. -/
theorem Layout_transform_order_witness :
    StageLaws pointLn pointPersp ∧
    renderPaths pointLn demoSlice demoContext.Max segmentMesh =
      segmentMesh.map
        (fun path => path.map (composedMap pointLn pointPersp demoSlice demoContext.Max)) :=
  have hL : StageLaws pointLn pointPersp :=
    { scale := fun _ _ _ => rfl, translate := fun _ _ => rfl,
      perspective := fun _ _ _ _ _ _ _ _ => rfl }
  ⟨hL, (Layout_transform_order pointLn pointPersp hL demoSlice demoContext.Max).2.1 segmentMesh⟩

/-- C4: for a contour set without an empty contour the projection loop
returns, contour by contour in input order, one `MoveTo` for the first
vertex followed by one `LineTo` for each later vertex: as many `MoveTo`s as
contours and as many commands as vertices. -/
theorem projectPaths_open_polylines (h : ℚ) (paths : Paths)
    (hne : ∀ path ∈ paths, path ≠ []) :
    ∃ cmds, projectPaths h paths = some cmds ∧
      cmds = (paths.map (polyline h)).flatten ∧
      (cmds.filter Op.isMoveTo).length = paths.length ∧
      cmds.length = (paths.map List.length).sum := by
  refine ⟨_, projectPaths_of_nonempty h paths hne, rfl, ?_, ?_⟩
  · induction paths with
    | nil => rfl
    | cons path rest ih =>
      have h1 := countMoveTo_polyline h path (hne path (List.mem_cons_self _ _))
      have h2 := ih (fun q hq => hne q (List.mem_cons_of_mem _ hq))
      simp only [List.map_cons, List.flatten_cons, List.filter_append, List.length_append,
        List.length_cons, h1, h2]
      omega
  · induction paths with
    | nil => rfl
    | cons path rest ih =>
      have h2 := ih (fun q hq => hne q (List.mem_cons_of_mem _ hq))
      simp only [List.map_cons, List.flatten_cons, List.length_append, List.sum_cons,
        length_polyline, h2]

/-- The property C4 at a contour set of a three-vertex and a two-vertex
contour. -/
theorem projectPaths_open_polylines_witness :
    projectPaths 10 [[⟨0, 1, 5⟩, ⟨2, 3, 5⟩, ⟨4, 4, 5⟩], [⟨6, 7, 5⟩, ⟨8, 9, 5⟩]] =
      some [Op.MoveTo ⟨0, 9⟩, Op.LineTo ⟨2, 7⟩, Op.LineTo ⟨4, 6⟩,
            Op.MoveTo ⟨6, 3⟩, Op.LineTo ⟨8, 1⟩] := by
  obtain ⟨cmds, hc, heq, _, _⟩ :=
    projectPaths_open_polylines 10
      [[⟨0, 1, 5⟩, ⟨2, 3, 5⟩, ⟨4, 4, 5⟩], [⟨6, 7, 5⟩, ⟨8, 9, 5⟩]] (by simp)
  rw [hc, heq]
  norm_num [polyline, f64pt]

/-- C5, as the code has it: the projection loop completes exactly when no
contour of the set is empty, and so do `Scene.Layout` and `Slice.Layout`;
a contour without a vertex makes `path[0]` fail and no frame is produced. -/
theorem projectPaths_completes_iff {Mesh Matrix : Type} (L : Ln Mesh Matrix) (h : ℚ)
    (paths : Paths) (scene : Scene Mesh) (slices : Slice Mesh) (gtx : Context) :
    ((∃ cmds, projectPaths h paths = some cmds) ↔ ∀ path ∈ paths, path ≠ []) ∧
    (projectPaths h paths = none ↔ [] ∈ paths) ∧
    (Scene.Layout L scene gtx = none ↔ [] ∈ scenePaths L scene gtx) ∧
    (Slice.Layout L slices gtx = none ↔
      ∃ i ∈ List.range slices.Slices.toNat, [] ∈ slicePaths L slices gtx.Max (i : Int)) := by
  refine ⟨?_, projectPaths_eq_none_iff h paths, ?_, ?_⟩
  · constructor
    · rintro ⟨cmds, hc⟩ path hp hnil
      rw [projectPaths_of_mem_nil h paths (hnil ▸ hp)] at hc
      exact Option.noConfusion hc
    · intro hne
      exact ⟨_, projectPaths_of_nonempty h paths hne⟩
  · rw [← projectPaths_eq_none_iff (gtx.Max.Y : ℚ)]
    simp only [Scene.Layout, scenePaths]
    split <;> simp_all
  · constructor
    · intro hnone
      by_contra hex
      have hne : ∀ i ∈ List.range slices.Slices.toNat,
          [] ∉ slicePaths L slices gtx.Max (i : Int) :=
        fun i hi hmem => hex ⟨i, hi, hmem⟩
      rw [Layout_of_nonempty L slices gtx hne] at hnone
      exact Option.noConfusion hnone
    · exact Layout_of_mem_nil L slices gtx

/-- C5 fails as stated: on a contour set with an empty contour the
projection loop fails, and so do both layout methods. -/
theorem projectPaths_empty_contour_fails :
    projectPaths 600 [[⟨0, 0, 0⟩, ⟨1, 0, 0⟩], []] = none ∧
    Slice.Layout pointLn emptyContourSlice demoContext = none ∧
    Scene.Layout pointLn emptyContourScene demoContext = none := by
  refine ⟨?_, ?_, ?_⟩
  · exact projectPaths_of_mem_nil _ _ (by simp)
  · apply Layout_of_mem_nil
    refine ⟨0, by simp [emptyContourSlice], ?_⟩
    simp [slicePaths, sliceGeometry, Ln.intersect, renderPaths, Ln.Transform, pointLn, emptyContourSlice, emptyContourMesh]
  · have hmem : [] ∈ scenePaths pointLn emptyContourScene demoContext := by
      simp [scenePaths, pointLn, emptyContourScene, emptyContourMesh]
    have hnone := projectPaths_of_mem_nil (demoContext.Max.Y : ℚ) _ hmem
    simp only [scenePaths] at hnone
    simp only [Scene.Layout, hnone]

/-- C6: `f64pt(p, h)` is `(p.x, h - p.y)`; it does not depend on `p.z`,
`h - f64pt(p, h).Y` is `p.y` again, and flipping twice gives `p.y` back. -/
theorem f64pt_flip_roundtrip (p : Vector) (h : ℚ) :
    f64pt p h = { X := p.X, Y := h - p.Y } ∧
    (∀ z : ℚ, f64pt ⟨p.X, p.Y, z⟩ h = f64pt p h) ∧
    h - (f64pt p h).Y = p.Y ∧
    (f64pt ⟨p.X, (f64pt p h).Y, p.Z⟩ h).Y = p.Y := by
  refine ⟨rfl, fun _ => rfl, ?_, ?_⟩ <;> simp [f64pt]

/-- C7: in a frame of `Slice.Layout` the colour of slice `i` is
`HSL(s_i, 0.6, 0.6)` with `s_i = i/N*2 - 1`; two frames with the same slice
count carry the same colours, whatever their library, mesh, rotation
angle, camera vectors, viewport and time are. -/
theorem slice_colors_depend_on_offset_only {Mesh₁ Matrix₁ Mesh₂ Matrix₂ : Type}
    (L₁ : Ln Mesh₁ Matrix₁) (L₂ : Ln Mesh₂ Matrix₂) (scene₁ : Slice Mesh₁)
    (scene₂ : Slice Mesh₂) (gtx₁ gtx₂ : Context) (f₁ f₂ : Frame)
    (hN : scene₁.Slices = scene₂.Slices)
    (h₁ : Slice.Layout L₁ scene₁ gtx₁ = some f₁)
    (h₂ : Slice.Layout L₂ scene₂ gtx₂ = some f₂) :
    colors f₁.ops = (List.range scene₁.Slices.toNat).map
      (fun (i : Nat) => Color.HSL ((i : ℚ) / (scene₁.Slices : ℚ) * 2 - 1) (3 / 5) (3 / 5)) ∧
    colors f₂.ops = colors f₁.ops ∧
    (∀ i : Nat, (i : Int) < scene₁.Slices →
      (colors f₁.ops)[i]? =
        some (Color.HSL (sliceOffset scene₁.Slices i) (3 / 5) (3 / 5)) ∧
      (colors f₂.ops)[i]? = (colors f₁.ops)[i]?) := by
  have key : ∀ {Mesh Matrix : Type} (L : Ln Mesh Matrix) (scene : Slice Mesh)
      (gtx : Context) (f : Frame), Slice.Layout L scene gtx = some f →
      colors f.ops = (List.range scene.Slices.toNat).map
        (fun (i : Nat) => Color.HSL (sliceOffset scene.Slices (i : Int)) (3 / 5) (3 / 5)) := by
    intro Mesh Matrix L scene gtx f hf
    have hne := Layout_some_nonempty L scene gtx f hf
    have hf2 := Layout_of_nonempty L scene gtx hne
    rw [hf] at hf2
    rw [Option.some.inj hf2]
    have hc := colors_slices L scene gtx.Max (List.range scene.Slices.toNat)
    unfold colors at hc ⊢
    simp [hc]
  have k₁ := key L₁ scene₁ gtx₁ f₁ h₁
  have k₂ := key L₂ scene₂ gtx₂ f₂ h₂
  have h21 : colors f₂.ops = colors f₁.ops := by rw [k₁, k₂, hN]
  refine ⟨?_, h21, ?_⟩
  · rw [k₁]
    apply List.map_congr_left
    intro i _
    simp [sliceOffset]
  · intro i hi
    have hlt : i < scene₁.Slices.toNat := by omega
    refine ⟨?_, by rw [h21]⟩
    rw [k₁]
    simp [List.getElem?_map, List.getElem?_range hlt]

/-- The property C7 at two frames of two slices that differ in mesh,
rotation angle, eye, viewport and time. -/
theorem slice_colors_depend_on_offset_only_witness :
    ∃ f₁ f₂, Slice.Layout pointLn demoSlice demoContext = some f₁ ∧
      Slice.Layout pointLn otherSlice otherContext = some f₂ ∧
      colors f₁.ops = [Color.HSL (-1) (3 / 5) (3 / 5), Color.HSL 0 (3 / 5) (3 / 5)] ∧
      colors f₂.ops = colors f₁.ops := by
  have h₁ := Layout_of_nonempty pointLn demoSlice demoContext demoSlice_nonempty
  have h₂ := Layout_of_nonempty pointLn otherSlice otherContext (by
    intro i _
    simp [slicePaths, sliceGeometry, Ln.intersect, renderPaths, Ln.Transform, pointLn, otherSlice])
  have h := slice_colors_depend_on_offset_only pointLn pointLn demoSlice otherSlice
    demoContext otherContext _ _ rfl h₁ h₂
  refine ⟨_, _, h₁, h₂, ?_, h.2.1⟩
  rw [h.1]
  have h2 : Int.toNat 2 = 2 := rfl
  norm_num [demoSlice, h2, List.range_succ]

end Slicer

namespace Slicer

theorem tdiv_le_tdiv_of_le (a b : Int) (hab : a ≤ b) :
    Int.tdiv a 1000000 ≤ Int.tdiv b 1000000 := by
  have hneg : ∀ x : Int, x < 0 → Int.tdiv x 1000000 = -((-x) / 1000000) := by
    intro x hx
    have h1 : Int.tdiv x 1000000 = -(Int.tdiv (-x) 1000000) := by
      rw [Int.neg_tdiv, neg_neg]
    rw [h1, Int.tdiv_eq_ediv (by omega) (by norm_num)]
  have hpos : ∀ x : Int, 0 ≤ x → Int.tdiv x 1000000 = x / 1000000 :=
    fun x hx => Int.tdiv_eq_ediv hx (by norm_num)
  rcases lt_or_le a 0 with ha | ha <;> rcases lt_or_le b 0 with hb | hb
  · rw [hneg a ha, hneg b hb]; omega
  · rw [hneg a ha, hpos b hb]; omega
  · omega
  · rw [hpos a ha, hpos b hb]; omega

/-- C8: the rotation angle that `UI.Layout` hands to `Slice.Layout` is the
whole milliseconds of the frame time (nanoseconds divided by `10^6`,
truncating) times `0.001`; it does not decrease when the time does not, is
`0` at time `0`, and after `k` whole seconds it is `k` itself: no multiple
of a turn is ever taken off. -/
theorem rotation_angle_monotone {Mesh Matrix : Type} (L : Ln Mesh Matrix) (ui : UI Mesh)
    (gtx₁ gtx₂ : Context) :
    UI.Layout L ui gtx₁ =
      Slice.Layout L
        { Mesh := ui.Mesh, Slices := 128,
          RotY := ((Int.tdiv gtx₁.Now 1000000 : Int) : ℚ) * (1 / 1000),
          Eye := ⟨-(1 / 2), 1 / 2, 2⟩, Up := ⟨0, 1, 0⟩, Center := ⟨0, 0, 0⟩ } gtx₁ ∧
    (0 ≤ gtx₁.Now →
      Int.tdiv gtx₁.Now 1000000 * 1000000 ≤ gtx₁.Now ∧
      gtx₁.Now < (Int.tdiv gtx₁.Now 1000000 + 1) * 1000000) ∧
    (gtx₁.Now ≤ gtx₂.Now → (UI.slice ui gtx₁).RotY ≤ (UI.slice ui gtx₂).RotY) ∧
    (gtx₁.Now = 0 → (UI.slice ui gtx₁).RotY = 0) ∧
    (∀ k : Int, gtx₁.Now = k * 1000000000 → (UI.slice ui gtx₁).RotY = (k : ℚ)) := by
  refine ⟨rfl, ?_, ?_, ?_, ?_⟩
  · intro h0
    rw [Int.tdiv_eq_ediv h0 (by norm_num)]
    omega
  · intro hle
    have hq : ((Int.tdiv gtx₁.Now 1000000 : Int) : ℚ) ≤ ((Int.tdiv gtx₂.Now 1000000 : Int) : ℚ) := by
      exact_mod_cast tdiv_le_tdiv_of_le _ _ hle
    simp only [UI.slice]
    linarith
  · intro h0
    simp [UI.slice, h0]
  · intro k hk
    have h1 : Int.tdiv gtx₁.Now 1000000 = k * 1000 := by
      rw [hk, show k * 1000000000 = (k * 1000) * 1000000 by ring]
      exact Int.mul_tdiv_cancel _ (by norm_num)
    simp only [UI.slice, h1]
    push_cast
    ring

/-- The property C8 at a quarter of a second and at seven seconds. -/
theorem rotation_angle_monotone_witness :
    (UI.slice (UI.mk segmentMesh) demoContext).RotY ≤
      (UI.slice (UI.mk segmentMesh) otherContext).RotY ∧
    (UI.slice (UI.mk segmentMesh) otherContext).RotY = 7 := by
  have h := rotation_angle_monotone pointLn (UI.mk segmentMesh) demoContext otherContext
  have h7 := (rotation_angle_monotone pointLn (UI.mk segmentMesh) otherContext demoContext).2.2.2.2
    7 (by simp [otherContext])
  exact ⟨h.2.2.1 (by simp [demoContext, otherContext]), by simpa using h7⟩

/-- C9, as the code has it: with one slice the plane has offset `-1`, and
when intersecting and simplifying gives the one contour `[a, b]` the frame
is one polyline of a `MoveTo` and a `LineTo`, stroked with width 3 and
coloured `HSL(-1, 0.6, 0.6)`. -/
theorem scenarioA_single_slice {Mesh Matrix : Type} (L : Ln Mesh Matrix)
    (scene : Slice Mesh) (gtx : Context) (a b : Vector)
    (hN : scene.Slices = 1)
    (hgeo : L.Simplify
      (L.IntersectMesh { Point := ⟨0, -1, 0⟩, Normal := ⟨0, 1, 0⟩ } scene.Mesh)
      (1 / 1000000) = [[a, b]]) :
    Slice.Layout L scene gtx =
      some { planes := [{ Point := ⟨0, -1, 0⟩, Normal := ⟨0, 1, 0⟩ }],
             ops := [Op.InvalidateOp, Op.Save, Op.PathBegin,
               Op.MoveTo (f64pt (L.MulPosition (screenMatrix L gtx.Max)
                 (L.MulPosition (viewMatrix L scene.Eye scene.Center scene.Up gtx.Max)
                   (L.MulPosition (rotationMatrix L scene.RotY) a))) (gtx.Max.Y : ℚ)),
               Op.LineTo (f64pt (L.MulPosition (screenMatrix L gtx.Max)
                 (L.MulPosition (viewMatrix L scene.Eye scene.Center scene.Up gtx.Max)
                   (L.MulPosition (rotationMatrix L scene.RotY) b))) (gtx.Max.Y : ℚ)),
               Op.Stroke 3, Op.ColorOp (Color.HSL (-1) (3 / 5) (3 / 5)),
               Op.PaintOp, Op.Load],
             Size := gtx.Max } := by
  have hplane : slicePlane scene.Slices ((0 : Nat) : Int) =
      { Point := ⟨0, -1, 0⟩, Normal := ⟨0, 1, 0⟩ } := by
    simp [slicePlane, sliceOffset]
  have hoff : sliceOffset scene.Slices ((0 : Nat) : Int) = -1 := by simp [sliceOffset]
  have hpaths : slicePaths L scene gtx.Max ((0 : Nat) : Int) =
      [[L.MulPosition (screenMatrix L gtx.Max)
          (L.MulPosition (viewMatrix L scene.Eye scene.Center scene.Up gtx.Max)
            (L.MulPosition (rotationMatrix L scene.RotY) a)),
        L.MulPosition (screenMatrix L gtx.Max)
          (L.MulPosition (viewMatrix L scene.Eye scene.Center scene.Up gtx.Max)
            (L.MulPosition (rotationMatrix L scene.RotY) b))]] := by
    simp only [slicePaths, sliceGeometry, Ln.intersect, hplane, hgeo, renderPaths, Ln.Transform, List.map_cons,
      List.map_nil]
  have hrange : List.range scene.Slices.toNat = [0] := by
    rw [hN]; rfl
  have hne : ∀ i ∈ List.range scene.Slices.toNat,
      [] ∉ slicePaths L scene gtx.Max (i : Int) := by
    intro i hi
    rw [hrange] at hi
    have hi0 : i = 0 := by simpa using hi
    rw [hi0, hpaths]
    simp
  rw [Layout_of_nonempty L scene gtx hne, hrange]
  simp only [List.map_cons, List.map_nil, hplane, sliceOps, hpaths, hoff, polyline,
    List.flatten_cons, List.flatten_nil, List.append_nil, List.cons_append, List.nil_append]

/-- The amended C9 at the one-segment mesh of `pointLn`. -/
theorem scenarioA_single_slice_witness :
    ∃ p q, Slice.Layout pointLn singleSlice demoContext =
      some { planes := [{ Point := ⟨0, -1, 0⟩, Normal := ⟨0, 1, 0⟩ }],
             ops := [Op.InvalidateOp, Op.Save, Op.PathBegin, Op.MoveTo p, Op.LineTo q,
               Op.Stroke 3, Op.ColorOp (Color.HSL (-1) (3 / 5) (3 / 5)),
               Op.PaintOp, Op.Load],
             Size := ⟨800, 600⟩ } :=
  ⟨_, _, scenarioA_single_slice pointLn singleSlice demoContext ⟨-1, -1, 0⟩ ⟨1, -1, 0⟩ rfl
    (by simp [pointLn, singleSlice, segmentMesh])⟩

/-- C9 fails as stated: with one slice the cutting plane has offset `-1`,
not `0`, and the hue handed to `HSL` is `-1`. -/
theorem scenarioA_offset_is_not_zero :
    sliceOffset 1 0 = -1 ∧ (slicePlane 1 0).Point.Y ≠ 0 ∧
    ∃ f, Slice.Layout pointLn singleSlice demoContext = some f ∧
      f.planes = [{ Point := ⟨0, -1, 0⟩, Normal := ⟨0, 1, 0⟩ }] ∧
      colors f.ops = [Color.HSL (-1) (3 / 5) (3 / 5)] := by
  have hne : ∀ i ∈ List.range singleSlice.Slices.toNat,
      [] ∉ slicePaths pointLn singleSlice demoContext.Max (i : Int) := by
    intro i _
    simp [slicePaths, sliceGeometry, Ln.intersect, renderPaths, Ln.Transform, pointLn, singleSlice, segmentMesh]
  have hf := Layout_of_nonempty pointLn singleSlice demoContext hne
  have hc := colors_slices pointLn singleSlice demoContext.Max
    (List.range singleSlice.Slices.toNat)
  have h1 : Int.toNat 1 = 1 := rfl
  refine ⟨by norm_num [sliceOffset], by norm_num [slicePlane, sliceOffset], _, hf, ?_, ?_⟩
  · norm_num [singleSlice, h1, List.range_succ, slicePlane, sliceOffset]
  · unfold colors at hc ⊢
    simp only [List.filterMap_cons, hc]
    norm_num [singleSlice, h1, List.range_succ, sliceOffset]

end Slicer

/-! ## Properties of the animation of `circles` -/

namespace Circles

theorem wrapInt64_of_fits (x : Int) (hlo : minInt64 ≤ x) (hhi : x ≤ maxInt64) :
    wrapInt64 x = x := by
  simp only [wrapInt64, minInt64, maxInt64] at *
  omega

theorem delta_nonneg_of_le (anim : Animation) (gtxNow : Time)
    (hle : anim.now.ns ≤ gtxNow.ns) : 0 ≤ anim.delta gtxNow := by
  simp only [Animation.delta, Time.Sub, Time.IsZero, minInt64, maxInt64]
  split <;> split <;> (try split) <;> omega

/-- C10, as the code has it: `Animation.Update` keeps `progress ≤ duration`;
at `progress = duration` it changes no progress and asks for no redraw; at
`progress < duration` it asks for a redraw and, when
`progress + min(delta, 15ms)` is an `int64`, the new progress is
`min(duration, progress + min(delta, 15ms))`, at most 15 ms above the old
one and not below it when the frame time did not go back; `delta` is `0`
when the stored time is the zero time. -/
theorem Update_progress_within_duration (anim : Animation) (gtxNow : Time)
    (hle : anim.progress ≤ anim.duration) :
    (anim.Update gtxNow).anim.progress ≤ (anim.Update gtxNow).anim.duration ∧
    (anim.Update gtxNow).anim.duration = anim.duration ∧
    (anim.Update gtxNow).anim.now = gtxNow ∧
    (anim.now.IsZero = true → anim.delta gtxNow = 0) ∧
    (anim.now.IsZero = false → anim.delta gtxNow = gtxNow.Sub anim.now) ∧
    (anim.progress = anim.duration →
      (anim.Update gtxNow).anim.progress = anim.progress ∧
      (anim.Update gtxNow).invalidated = false) ∧
    (anim.progress < anim.duration → (anim.Update gtxNow).invalidated = true) ∧
    (minInt64 ≤ anim.progress + min (anim.delta gtxNow) (15 * Millisecond) →
      anim.progress + min (anim.delta gtxNow) (15 * Millisecond) ≤ maxInt64 →
      (anim.progress < anim.duration →
        (anim.Update gtxNow).anim.progress =
          min anim.duration (anim.progress + min (anim.delta gtxNow) (15 * Millisecond))) ∧
      (anim.Update gtxNow).anim.progress - anim.progress ≤ 15 * Millisecond ∧
      (anim.now.ns ≤ gtxNow.ns → anim.progress ≤ (anim.Update gtxNow).anim.progress)) := by
  have hcap : (if anim.delta gtxNow > 15 * Millisecond then 15 * Millisecond
      else anim.delta gtxNow) = min (anim.delta gtxNow) (15 * Millisecond) := by
    split
    · rw [min_eq_right (by omega)]
    · rw [min_eq_left (by omega)]
  refine ⟨?_, ?_, ?_, ?_, ?_, ?_, ?_, ?_⟩
  · simp only [Animation.Update]
    split
    · simp only []
      split <;> omega
    · exact hle
  · simp only [Animation.Update]
    split <;> rfl
  · simp only [Animation.Update]
    split <;> rfl
  · intro hz
    simp [Animation.delta, hz, Time.Sub, minInt64, maxInt64]
  · intro hz
    simp [Animation.delta, hz]
  · intro heq
    have hnlt : ¬ anim.progress < anim.duration := by omega
    simp [Animation.Update, hnlt]
  · intro hlt
    simp [Animation.Update, hlt]
  · intro hlo hhi
    have hw := wrapInt64_of_fits _ hlo hhi
    have hstep : min (anim.delta gtxNow) (15 * Millisecond) ≤ 15 * Millisecond :=
      min_le_right _ _
    have hnew : anim.progress < anim.duration →
        (anim.Update gtxNow).anim.progress =
          min anim.duration (anim.progress + min (anim.delta gtxNow) (15 * Millisecond)) := by
      intro hlt
      simp only [Animation.Update, hlt, if_true, hcap, hw]
      generalize anim.progress + min (anim.delta gtxNow) (15 * Millisecond) = s
      split
      · exact (min_eq_left (by omega)).symm
      · exact (min_eq_right (by omega)).symm
    have hsame : ¬ anim.progress < anim.duration →
        (anim.Update gtxNow).anim.progress = anim.progress := by
      intro hnlt
      simp [Animation.Update, hnlt]
    refine ⟨hnew, ?_, ?_⟩
    · by_cases hlt : anim.progress < anim.duration
      · rw [hnew hlt]
        have := min_le_right anim.duration
          (anim.progress + min (anim.delta gtxNow) (15 * Millisecond))
        simp only [Millisecond] at *
        omega
      · rw [hsame hlt]
        simp only [Millisecond]
        omega
    · intro hmono
      by_cases hlt : anim.progress < anim.duration
      · rw [hnew hlt]
        have hd := delta_nonneg_of_le anim gtxNow hmono
        have h15 : (0 : Int) ≤ 15 * Millisecond := by simp [Millisecond]
        have hs : 0 ≤ min (anim.delta gtxNow) (15 * Millisecond) := le_min hd h15
        exact le_min (le_of_lt hlt) (by omega)
      · rw [hsame hlt]

/-- The amended C10 at an animation of 1500 ms that has run for 1490 ms,
forty milliseconds after its last update: the step is capped at 15 ms and
the progress stops at the duration. -/
theorem Update_progress_within_duration_witness :
    demoAnimation.progress ≤ demoAnimation.duration ∧
    (demoAnimation.Update ⟨5040000000⟩).anim.progress = 1500000000 ∧
    (demoAnimation.Update ⟨5040000000⟩).invalidated = true := by
  have h := Update_progress_within_duration demoAnimation ⟨5040000000⟩ (by decide)
  have h8 := (h.2.2.2.2.2.2.2 (by decide) (by decide)).1 (by decide)
  refine ⟨by decide, ?_, h.2.2.2.2.2.2.1 (by decide)⟩
  rw [h8]
  decide

/-- C10 fails as stated: with the largest duration and a progress one
nanosecond short of it, a frame 15 ms later wraps the `int64` sum, and the
new progress is far below the old one instead of `min(duration, ...)`. -/
theorem Update_progress_wraps :
    longAnimation.progress ≤ longAnimation.duration ∧
    longAnimation.progress < longAnimation.duration ∧
    longAnimation.now.ns ≤ (Time.mk 15000001).ns ∧
    longAnimation.delta ⟨15000001⟩ = 15 * Millisecond ∧
    (longAnimation.Update ⟨15000001⟩).anim.progress = -9223372036839775810 ∧
    (longAnimation.Update ⟨15000001⟩).anim.progress ≠
      min longAnimation.duration
        (longAnimation.progress + min (longAnimation.delta ⟨15000001⟩) (15 * Millisecond)) ∧
    (longAnimation.Update ⟨15000001⟩).anim.progress < longAnimation.progress := by
  decide

end Circles
